import Mathlib

/-!
# Verification of the FortuneTeller deep-analysis caching subsystem

Shallow embedding of the speculative L2-prewarm cache, the resilient
provider invoker, and the PostgreSQL share-storage slice of the
FortuneTeller server (`server/routes.py`, `server/ai.py`,
`server/storage.py`), together with proofs of the specified properties.

Machine timestamps are modelled as rationals, byte strings as lists of
naturals below 256, and the Python `dict` as an association list whose
keys are unique (insertion order preserved, as in CPython).
-/

set_option maxHeartbeats 1000000
set_option maxRecDepth 100000

namespace FortuneTeller

/-! ## SHA-256 (`hashlib.sha256`), over lists of bytes -/

/-- Truncate to a 32-bit word, `n % 2^32`. -/
def w32 (n : Nat) : Nat := n % 4294967296

/-- Right rotation of a 32-bit word by `k` bits. -/
def rotr (k x : Nat) : Nat := w32 (x / 2 ^ k + x % 2 ^ k * 2 ^ (32 - k))

/-- Logical right shift of a 32-bit word by `k` bits. -/
def shr (k x : Nat) : Nat := x / 2 ^ k

/-- Bitwise complement on 32-bit words. -/
def compl32 (x : Nat) : Nat := 4294967295 ^^^ x

/-- SHA-256 `Ch(x,y,z) = (x ∧ y) ⊕ (¬x ∧ z)`. -/
def sha2Ch (x y z : Nat) : Nat := (x &&& y) ^^^ (compl32 x &&& z)

/-- SHA-256 `Maj(x,y,z) = (x ∧ y) ⊕ (x ∧ z) ⊕ (y ∧ z)`. -/
def sha2Maj (x y z : Nat) : Nat := (x &&& y) ^^^ (x &&& z) ^^^ (y &&& z)

/-- SHA-256 `Σ₀`. -/
def bigSigma0 (x : Nat) : Nat := rotr 2 x ^^^ rotr 13 x ^^^ rotr 22 x

/-- SHA-256 `Σ₁`. -/
def bigSigma1 (x : Nat) : Nat := rotr 6 x ^^^ rotr 11 x ^^^ rotr 25 x

/-- SHA-256 `σ₀`. -/
def smallSigma0 (x : Nat) : Nat := rotr 7 x ^^^ rotr 18 x ^^^ shr 3 x

/-- SHA-256 `σ₁`. -/
def smallSigma1 (x : Nat) : Nat := rotr 17 x ^^^ rotr 19 x ^^^ shr 10 x

/-- The 64 SHA-256 round constants (decimal). -/
def sha2K : List Nat :=
  [1116352408, 1899447441, 3049323471, 3921009573, 961987163,
   1508970993, 2453635748, 2870763221, 3624381080, 310598401,
   607225278, 1426881987, 1925078388, 2162078206, 2614888103,
   3248222580, 3835390401, 4022224774, 264347078, 604807628,
   770255983, 1249150122, 1555081692, 1996064986, 2554220882,
   2821834349, 2952996808, 3210313671, 3336571891, 3584528711,
   113926993, 338241895, 666307205, 773529912, 1294757372,
   1396182291, 1695183700, 1986661051, 2177026350, 2456956037,
   2730485921, 2820302411, 3259730800, 3345764771, 3516065817,
   3600352804, 4094571909, 275423344, 430227734, 506948616,
   659060556, 883997877, 958139571, 1322822218, 1537002063,
   1747873779, 1955562222, 2024104815, 2227730452, 2361852424,
   2428436474, 2756734187, 3204031479, 3329325298]

/-- The initial SHA-256 hash state (decimal). -/
def sha2H0 : List Nat :=
  [1779033703, 3144134277, 1013904242, 2773480762,
   1359893119, 2600822924, 528734635, 1541459225]

/-- Big-endian 8-byte encoding of a natural number. -/
def be64 (n : Nat) : List Nat :=
  [n / 2 ^ 56 % 256, n / 2 ^ 48 % 256, n / 2 ^ 40 % 256, n / 2 ^ 32 % 256,
   n / 2 ^ 24 % 256, n / 2 ^ 16 % 256, n / 2 ^ 8 % 256, n % 256]

/-- SHA-256 message padding: append `0x80`, zero bytes up to 56 mod 64,
then the bit length as a big-endian 64-bit integer. -/
def padMessage (msg : List Nat) : List Nat :=
  let L := msg.length
  let zeros := (119 - L % 64) % 64
  msg ++ [0x80] ++ List.replicate zeros 0 ++ be64 (8 * L)

/-- Group bytes into big-endian 32-bit words. -/
def bytesToWords : List Nat → List Nat
  | a :: b :: c :: d :: rest =>
      (a * 16777216 + b * 65536 + c * 256 + d) :: bytesToWords rest
  | _ => []

/-- Split a word list into 16-word blocks (fuel-driven). -/
def chunk16 : Nat → List Nat → List (List Nat)
  | 0, _ => []
  | _, [] => []
  | fuel + 1, l => l.take 16 :: chunk16 fuel (l.drop 16)

/-- Extend a 16-word block to the 64-word message schedule. -/
def extendSchedule (block : List Nat) : List Nat :=
  (List.range 64).foldl
    (fun acc i =>
      if i < 16 then acc ++ [block.getD i 0]
      else
        acc ++ [w32 (smallSigma1 (acc.getD (i - 2) 0) + acc.getD (i - 7) 0 +
                     smallSigma0 (acc.getD (i - 15) 0) + acc.getD (i - 16) 0)])
    []

/-- One SHA-256 round: update the eight-word working state with round `i`
of schedule `w`. -/
def compressRound (w : List Nat) (st : List Nat) (i : Nat) : List Nat :=
  match st with
  | [a, b, c, d, e, f, g, hh] =>
      let t1 := w32 (hh + bigSigma1 e + sha2Ch e f g + sha2K.getD i 0 + w.getD i 0)
      let t2 := w32 (bigSigma0 a + sha2Maj a b c)
      [w32 (t1 + t2), a, b, c, w32 (d + t1), e, f, g]
  | other => other

/-- One SHA-256 compression of a block into the running hash state. -/
def compressBlock (h : List Nat) (block : List Nat) : List Nat :=
  let w := extendSchedule block
  let st := (List.range 64).foldl (compressRound w) h
  List.zipWith (fun x y => w32 (x + y)) h st

/-- SHA-256 digest (32 bytes) of a byte string. -/
def sha256 (msg : List Nat) : List Nat :=
  let words := bytesToWords (padMessage msg)
  let final := (chunk16 words.length words).foldl compressBlock sha2H0
  final.foldr
    (fun word acc =>
      word / 2 ^ 24 % 256 :: word / 2 ^ 16 % 256 :: word / 2 ^ 8 % 256 :: word % 256 :: acc)
    []

/-- Lower-case hex digit for a value below 16. -/
def hexDigit (n : Nat) : Char :=
  if n < 10 then Char.ofNat (48 + n) else Char.ofNat (87 + n)

/-- Lower-case hex string of a byte list (`hexdigest`). -/
def bytesToHex (bs : List Nat) : String :=
  String.mk (bs.foldr (fun b acc => hexDigit (b / 16) :: hexDigit (b % 16) :: acc) [])

/-! ## UTF-8 encoding (`str.encode("utf-8")`) -/

/-- UTF-8 encoding of a single code point. -/
def utf8Char (c : Char) : List Nat :=
  let n := c.toNat
  if n < 128 then [n]
  else if n < 2048 then [192 + n / 64, 128 + n % 64]
  else if n < 65536 then [224 + n / 4096, 128 + n / 64 % 64, 128 + n % 64]
  else [240 + n / 262144, 128 + n / 4096 % 64, 128 + n / 64 % 64, 128 + n % 64]

/-- UTF-8 encoding of a string as a byte list. -/
def utf8Bytes (s : String) : List Nat :=
  s.data.foldr (fun c acc => utf8Char c ++ acc) []

/-! ## Fortune signatures (`routes.py` lines 41–59)

`_canonical_fortunes` maps any payload without a `grok` sub-dict to `{}`,
and a payload with one to a three-field object (missing fields default to
the empty string).  We model the payload as `Option GrokFortune`: `none`
is every empty/absent/malformed case, `some g` the case with a `grok`
dict whose (defaulted) fields are those of `g`. -/

/-- The three short-reading fields extracted by `_canonical_fortunes`. -/
structure GrokFortune where
  face : String
  career : String
  blessing : String
deriving DecidableEq, Repr

/-- JSON escaping of one character, as CPython's `json.dumps` with
`ensure_ascii=False` does it. -/
def jsonEscapeChar (c : Char) : List Char :=
  if c = '"' then ['\\', '"']
  else if c = '\\' then ['\\', '\\']
  else if c.toNat = 8 then ['\\', 'b']
  else if c = '\t' then ['\\', 't']
  else if c = '\n' then ['\\', 'n']
  else if c.toNat = 12 then ['\\', 'f']
  else if c.toNat = 13 then ['\\', 'r']
  else if c.toNat < 32 then ['\\', 'u', '0', '0', hexDigit (c.toNat / 16), hexDigit (c.toNat % 16)]
  else [c]

/-- A JSON string literal for `s` (quotes plus escaped body). -/
def jsonString (s : String) : String :=
  "\"" ++ String.mk (s.data.foldr (fun c acc => jsonEscapeChar c ++ acc) []) ++ "\""

/-- `json.dumps(_canonical_fortunes(fortunes), ensure_ascii=False, sort_keys=True)`:
the canonical serialization hashed by `_fortunes_signature`.  Keys appear
in sorted order (`blessing < career < face`), with CPython's default
`", "` / `": "` separators. -/
def canonicalFortunesJson : Option GrokFortune → String
  | none => "\x7b\x7d"
  | some g =>
      "\x7b\"grok\": \x7b\"blessing\": " ++ jsonString g.blessing ++
      ", \"career\": " ++ jsonString g.career ++
      ", \"face\": " ++ jsonString g.face ++ "\x7d\x7d"

/-- `_fortunes_signature`: SHA-256 hexdigest of the UTF-8 encoded
canonical serialization. -/
def fortunesSignature (fortunes : Option GrokFortune) : String :=
  bytesToHex (sha256 (utf8Bytes (canonicalFortunesJson fortunes)))

/-! ## The speculative L2 prewarm cache (`routes.py` lines 35–113)

`_L2_PREWARM_CACHE` is a `dict` from signature to `(analysis, timestamp)`;
we model it as a list of entries whose signatures are unique, in dict
(insertion) order. -/

/-- One entry of `_L2_PREWARM_CACHE`: the key and the stored pair. -/
structure CacheEntry where
  sig : String
  text : String
  ts : ℚ
deriving DecidableEq, Repr

/-- The cache table. -/
abbrev PrewarmCache := List CacheEntry

/-- `_L2_PREWARM_TTL_SEC = 15 * 60`. -/
def L2_PREWARM_TTL_SEC : ℚ := 15 * 60

/-- `_L2_PREWARM_MAX_ENTRIES = 256`. -/
def L2_PREWARM_MAX_ENTRIES : Nat := 256

/-- `_gc_l2_prewarm_cache(now_ts)`: drop entries with `now_ts - ts > TTL`;
if still over the maximum size, drop the oldest-`ts` entries (stable sort
by timestamp, as Python's `sorted`) until at most the maximum remains. -/
def gcL2PrewarmCache (nowTs : ℚ) (cache : PrewarmCache) : PrewarmCache :=
  let kept := cache.filter (fun e => !decide (nowTs - e.ts > L2_PREWARM_TTL_SEC))
  if kept.length > L2_PREWARM_MAX_ENTRIES then
    let byTime := kept.mergeSort (fun a b => decide (a.ts ≤ b.ts))
    let toDrop := kept.length - L2_PREWARM_MAX_ENTRIES
    let dropped := byTime.take toDrop
    kept.filter (fun e => !dropped.any (fun d => d.sig == e.sig))
  else kept

/-- `_take_prewarmed_l2_analysis(fortunes)`: compute the signature, bail
out if it is falsy, garbage-collect, pop the entry for the signature and
return its text unless stale.  Returns the popped text (if any) together
with the cache table left behind. -/
def takePrewarmedL2Analysis (nowTs : ℚ) (fortunes : Option GrokFortune)
    (cache : PrewarmCache) : Option String × PrewarmCache :=
  let signature := fortunesSignature fortunes
  if signature = "" then (none, cache)
  else
    let cache1 := gcL2PrewarmCache nowTs cache
    match cache1.find? (fun e => e.sig == signature) with
    | none => (none, cache1)
    | some e =>
        let cache2 := cache1.eraseP (fun x => x.sig == signature)
        if decide (nowTs - e.ts > L2_PREWARM_TTL_SEC) then (none, cache2)
        else (some e.text, cache2)

/-- Whether `needle` is a prefix of `haystack` (character lists). -/
def charListIsPrefix : List Char → List Char → Bool
  | [], _ => true
  | _ :: _, [] => false
  | c :: cs, d :: ds => c == d && charListIsPrefix cs ds

/-- Whether `needle` occurs inside `haystack` (character lists). -/
def charListContains (needle : List Char) : List Char → Bool
  | [] => charListIsPrefix needle []
  | d :: ds => charListIsPrefix needle (d :: ds) || charListContains needle ds

/-- Python `needle in haystack` on strings. -/
def containsSubstr (needle haystack : String) : Bool :=
  charListContains needle.data haystack.data

/-- Python `dict` assignment `cache[sig] = (text, ts)`: replace in place
when the key exists, append otherwise. -/
def dictSetEntry (cache : PrewarmCache) (signature text : String) (ts : ℚ) : PrewarmCache :=
  if cache.any (fun e => e.sig == signature) then
    cache.map (fun e => if e.sig == signature then ⟨signature, text, ts⟩ else e)
  else cache ++ [⟨signature, text, ts⟩]

/-- `_prewarm_l2_from_fortunes(fortunes)` (lines 95–113).  `generated` is
the outcome of `await ai.generate_deep_analysis(fortunes)` (`none` when
it raised).  Returns whether the upstream provider call was issued and
the cache table afterwards; the in-flight set is restored on exit by the
`finally` block, so it is passed only as an input. -/
def prewarmL2FromFortunes (aiToken : Bool) (nowTs : ℚ) (fortunes : Option GrokFortune)
    (generated : Option String) (cache : PrewarmCache) (inflight : List String) :
    Bool × PrewarmCache :=
  if !aiToken then (false, cache)
  else
    let signature := fortunesSignature fortunes
    if signature = "" || inflight.contains signature then (false, cache)
    else
      match generated with
      | none => (true, cache)
      | some analysis =>
          if analysis = "" || containsSubstr "失败" analysis then (true, cache)
          else (true, gcL2PrewarmCache nowTs (dictSetEntry cache signature analysis nowTs))

/-! ## The share-creation slice of `create_share` (`routes.py` lines 306–382) -/

/-- The outcome of `create_share` that the cache claims are about: the
`analysis_l2` field written into the new record, whether a backfill task
was scheduled, and the cache table left behind. -/
structure ShareCreateOutcome where
  analysisL2 : Option String
  backfillScheduled : Bool
  cache : PrewarmCache
deriving DecidableEq, Repr

/-- The deep-analysis part of `create_share`: pop the speculative cache
for the request's fortunes; on a truthy hit store it in the document's
`analysis_l2`; schedule `_backfill_l2_analysis` only when a token is
configured and there was no truthy hit.  (`create_share` itself performs
no provider call; the only provider call reachable from it lives in the
backfill task.) -/
def createShare (aiToken : Bool) (nowTs : ℚ) (fortunesData : Option GrokFortune)
    (cache : PrewarmCache) : ShareCreateOutcome :=
  let taken := takePrewarmedL2Analysis nowTs fortunesData cache
  let hit := taken.1.getD "" != ""
  { analysisL2 := if hit then taken.1 else none
    backfillScheduled := aiToken && !hit
    cache := taken.2 }

/-! ## The resilient provider invoker (`ai.py` lines 108–166) -/

/-- The exceptions `_call_deep_model` can see from one attempt, and the
synthetic `RuntimeError("empty response")`. -/
inductive DeepErr where
  | timeout
  | network
  | httpStatus (code : Nat)
  | emptyResponse
  | other
deriving DecidableEq, Repr

/-- The classifier of lines 150–153: `httpx.TimeoutException` and
`httpx.NetworkError` are retriable, as is an `httpx.HTTPStatusError`
whose status is in `(408, 409, 429, 500, 502, 503, 504)`; everything
else (including the empty-response `RuntimeError`) is not. -/
def isRetriableErr : DeepErr → Bool
  | .timeout => true
  | .network => true
  | .httpStatus code =>
      code == 408 || code == 409 || code == 429 ||
      code == 500 || code == 502 || code == 503 || code == 504
  | .emptyResponse => false
  | .other => false

/-- What one upstream attempt produced: an HTTP-success body (already
stripped), or a raised exception. -/
inductive AttemptOutcome where
  | success (text : String)
  | failure (e : DeepErr)
deriving DecidableEq, Repr

/-- Lines 136–148: a non-empty body is the result; an empty body becomes
`RuntimeError("empty response")`; an exception is kept as `err`. -/
def attemptResult : AttemptOutcome → Except DeepErr String
  | .success t => if t = "" then .error .emptyResponse else .ok t
  | .failure e => .error e

/-- `max_attempts = 4` (line 112). -/
def maxAttempts : Nat := 4

/-- The `for attempt in range(1, max_attempts + 1)` loop of
`_call_deep_model`, with `provider k` the outcome of the `k`-th upstream
call.  Returns the text (or `none` on ultimate failure) paired with the
number of upstream calls issued.  The fuel equals the remaining loop
iterations and never runs out when started at `(maxAttempts, 1)`. -/
def callDeepModelAux (provider : Nat → AttemptOutcome) : Nat → Nat → Option String × Nat
  | 0, attempt => (none, attempt - 1)
  | fuel + 1, attempt =>
      match attemptResult (provider attempt) with
      | .ok t => (some t, attempt)
      | .error e =>
          if attempt < maxAttempts ∧ isRetriableErr e = true then
            callDeepModelAux provider fuel (attempt + 1)
          else (none, attempt)

/-- `_call_deep_model`, abstracted over the provider's behaviour: the
result text (`none` when the model ultimately failed) and how many
upstream calls were made. -/
def callDeepModel (provider : Nat → AttemptOutcome) : Option String × Nat :=
  callDeepModelAux provider maxAttempts 1

/-! ## PostgreSQL share storage (`storage.py` lines 85–187) -/

/-- A JSONB value, as stored in the `data` column. -/
inductive Jsonb where
  | null
  | bool (b : Bool)
  | num (q : ℚ)
  | str (s : String)
  | arr (elems : List Jsonb)
  | obj (fields : List (String × Jsonb))

/-- The `shares` table: rows `(share_id, data)` keyed by the primary key
`share_id`. -/
abbrev PgTable := List (String × Jsonb)

/-- PostgreSQL's `jsonb || jsonb` on two objects: a shallow merge in
which keys of the right operand win.  (Only object payloads reach the
operator in this program; on non-objects the right operand is kept.) -/
def jsonbConcat (a b : Jsonb) : Jsonb :=
  match a, b with
  | .obj fa, .obj fb =>
      .obj ((fa.filter (fun p => !fb.any (fun q => q.1 == p.1))) ++ fb)
  | _, _ => b

/-- The `UPDATE … SET data = COALESCE(data, '\x7b\x7d'::jsonb) || %s::jsonb
WHERE share_id = %s` statement: the updated table and the row count. -/
def sqlUpdateShares (tbl : PgTable) (shareId : String) (payload : Jsonb) : PgTable × Nat :=
  (tbl.map (fun r => if r.1 = shareId then (r.1, jsonbConcat r.2 payload) else r),
   (tbl.filter (fun r => r.1 == shareId)).length)

/-- `PostgresShareStorage.update_share` (lines 169–184): run the update;
when `cur.rowcount == 0` raise `KeyError(share_id)` — the commit is then
skipped and the transaction rolls back, so the table keeps its old
contents.  `Except.error` carries the `KeyError` argument. -/
def updateShare (tbl : PgTable) (shareId : String) (payload : Jsonb) :
    Except String PgTable :=
  let run := sqlUpdateShares tbl shareId payload
  if run.2 = 0 then .error shareId else .ok run.1

/-! ## Connection-string normalization (`storage.py` lines 97–112)

The URL is modelled at the granularity `urlsplit`/`parse_qsl` return:
scheme, network location, path, the query as a key/value pair list, and
the fragment. -/

/-- A split connection URL. -/
structure DbUrl where
  scheme : String
  netloc : String
  path : String
  query : List (String × String)
  fragment : String
deriving DecidableEq, Repr

/-- Python `dict` assignment `d[k] = v` on an association list (keys are
unique): replace in place when the key exists, append otherwise. -/
def dictSet : List (String × String) → String → String → List (String × String)
  | [], k, v => [(k, v)]
  | p :: rest, k, v => if p.1 = k then (k, v) :: rest else p :: dictSet rest k v

/-- `dict(parse_qsl(...))`: first-occurrence key order, last value wins. -/
def dictOfPairs (ps : List (String × String)) : List (String × String) :=
  ps.foldl (fun acc p => dictSet acc p.1 p.2) []

/-- Split a character list on a separator character; like Python
`str.split(sep)`, always at least one (possibly empty) part. -/
def splitOnChar (sep : Char) : List Char → List (List Char)
  | [] => [[]]
  | c :: cs =>
      let rest := splitOnChar sep cs
      if c = sep then [] :: rest
      else
        match rest with
        | [] => [[c]]
        | r :: rs => (c :: r) :: rs

/-- ASCII lower-casing of a string, character by character. -/
def toLowerStr (s : String) : String :=
  String.mk (s.data.map Char.toLower)

/-- `urlsplit(...).hostname`: the part of the netloc after the last `@`
and before the first `:`, lower-cased (`(parts.hostname or "").lower()`;
IPv6 bracket syntax does not occur in this deployment's URLs). -/
def hostnameOf (netloc : String) : String :=
  toLowerStr (String.mk (((splitOnChar '@' netloc.data).getLastD []
    |> splitOnChar ':').headD []))

/-- `host.split(".")[0] if host.startswith("ep-") else ""`: the endpoint
id carried to the `options` parameter. -/
def endpointIdOf (netloc : String) : String :=
  let host := hostnameOf netloc
  if charListIsPrefix "ep-".data host.data then
    String.mk ((splitOnChar '.' host.data).headD [])
  else ""

/-- `PostgresShareStorage._normalize_database_url`: default
`sslmode=require` when the query has no `sslmode`; when the host starts
with `ep-`, set `options=endpoint=<first host label>` unless the
existing `options` value already mentions `endpoint=`.  All other parts
pass through. -/
def normalizeDatabaseUrl (u : DbUrl) : DbUrl :=
  let query0 := dictOfPairs u.query
  let query1 :=
    if (query0.lookup "sslmode").isNone then dictSet query0 "sslmode" "require"
    else query0
  let endpointId := endpointIdOf u.netloc
  let optionsValue := (query1.lookup "options").getD ""
  let query2 :=
    if endpointId ≠ "" ∧ containsSubstr "endpoint=" optionsValue = false then
      dictSet query1 "options" ("endpoint=" ++ endpointId)
    else query1
  { u with query := query2 }

/-- The spec's notion of a connection string that requires transport
encryption, read off the effective `sslmode` (libpq: `require`,
`verify-ca` and `verify-full` force TLS; absent means `prefer`, which
does not).  This definition follows the spec's words, for comparison
with `normalizeDatabaseUrl`. -/
def specRequiresEncryption (u : DbUrl) : Bool :=
  match u.query.lookup "sslmode" with
  | some v => v == "require" || v == "verify-ca" || v == "verify-full"
  | none => false

/-- The constructed relational backend (after `__init__` succeeded): the
normalized URL and the table name. -/
structure PostgresShareStorage where
  databaseUrl : DbUrl
  tableName : String

/-- `PostgresShareStorage.__init__` (lines 88–95): reject an empty URL,
normalize it, and probe connectivity via `_ensure_table` — the only
point where the database must be reachable (`connectOk` is whether that
probe succeeded). -/
def mkPostgresShareStorage (databaseUrl : Option DbUrl) (connectOk : Bool)
    (tableName : String) : Except String PostgresShareStorage :=
  match databaseUrl with
  | none => .error "SHARE_DATABASE_URL not configured"
  | some url =>
      if connectOk then .ok ⟨normalizeDatabaseUrl url, tableName⟩
      else .error "ensure_table failed"

/-- `PostgresShareStorage.is_available` (lines 144–145): constantly
`True`. -/
def PostgresShareStorage.isAvailable (_ : PostgresShareStorage) : Bool := true

/-- The guard at the top of `create_share`, `get_share` and
`generate_l2_analysis` (`routes.py` lines 310–314): raise 503 exactly
when the storage reports unavailability. -/
def shareRouteUnavailableGuard (availability : Bool) : Bool := !availability

/-! ## Supporting lemmas: a fortunes signature is never the empty string -/

theorem compressRound_length (w : List Nat) (st : List Nat) (i : Nat) :
    (compressRound w st i).length = st.length := by
  rcases st with _ | ⟨a, _ | ⟨b, _ | ⟨c, _ | ⟨d, _ | ⟨e, _ | ⟨f, _ | ⟨g, _ | ⟨hh, _ | ⟨x, rest⟩⟩⟩⟩⟩⟩⟩⟩⟩ <;> rfl

theorem foldl_compressRound_length (w : List Nat) (l : List Nat) (init : List Nat) :
    (l.foldl (compressRound w) init).length = init.length := by
  induction l generalizing init with
  | nil => rfl
  | cons x xs ih => rw [List.foldl_cons, ih, compressRound_length]

theorem compressBlock_length (h block : List Nat) (hh : h.length = 8) :
    (compressBlock h block).length = 8 := by
  unfold compressBlock
  rw [List.length_zipWith, foldl_compressRound_length, hh]
  simp

theorem foldl_compressBlock_length (blocks : List (List Nat)) (init : List Nat)
    (h : init.length = 8) : (blocks.foldl compressBlock init).length = 8 := by
  induction blocks generalizing init with
  | nil => exact h
  | cons b bs ih => rw [List.foldl_cons]; exact ih _ (compressBlock_length _ _ h)

theorem sha256_length (msg : List Nat) : (sha256 msg).length = 32 := by
  have hsplit : ∀ (l : List Nat),
      (l.foldr (fun word acc =>
        word / 2 ^ 24 % 256 :: word / 2 ^ 16 % 256 :: word / 2 ^ 8 % 256 :: word % 256 :: acc)
        []).length = 4 * l.length := by
    intro l
    induction l with
    | nil => rfl
    | cons x xs ih => simp only [List.foldr_cons, List.length_cons, ih]; ring
  unfold sha256
  rw [hsplit, foldl_compressBlock_length]
  rfl

theorem bytesToHex_length (bs : List Nat) : (bytesToHex bs).length = 2 * bs.length := by
  unfold bytesToHex
  rw [String.length_mk]
  induction bs with
  | nil => rfl
  | cons b rest ih => simp [List.foldr_cons, ih]; ring

theorem fortunesSignature_length (f : Option GrokFortune) :
    (fortunesSignature f).length = 64 := by
  unfold fortunesSignature
  rw [bytesToHex_length, sha256_length]

theorem fortunesSignature_ne_empty (f : Option GrokFortune) : fortunesSignature f ≠ "" := by
  intro h
  have hl := fortunesSignature_length f
  rw [h] at hl
  simp at hl

/-! ## Supporting lemmas: the prewarm cache -/

theorem gc_sublist (nowTs : ℚ) (cache : PrewarmCache) :
    (gcL2PrewarmCache nowTs cache).Sublist cache := by
  unfold gcL2PrewarmCache
  dsimp only
  split
  · exact (List.filter_sublist _).trans (List.filter_sublist _)
  · exact List.filter_sublist _

theorem gc_eq_filter (nowTs : ℚ) (cache : PrewarmCache)
    (h : cache.length ≤ L2_PREWARM_MAX_ENTRIES) :
    gcL2PrewarmCache nowTs cache =
      cache.filter (fun e => !decide (nowTs - e.ts > L2_PREWARM_TTL_SEC)) := by
  unfold gcL2PrewarmCache
  dsimp only
  rw [if_neg]
  exact Nat.not_lt.mpr ((List.length_filter_le _ _).trans h)

theorem find_sig_eq (l : PrewarmCache) (e : CacheEntry) (hmem : e ∈ l)
    (hnd : (l.map CacheEntry.sig).Nodup) :
    l.find? (fun x => x.sig == e.sig) = some e := by
  induction l with
  | nil => cases hmem
  | cons a l ih =>
    rw [List.map_cons, List.nodup_cons] at hnd
    rcases List.mem_cons.mp hmem with rfl | hmem'
    · rw [List.find?_cons_of_pos _ (by simp)]
    · rw [List.find?_cons_of_neg, ih hmem' hnd.2]
      simp only [beq_iff_eq]
      intro hcontra
      exact hnd.1 (hcontra ▸ List.mem_map_of_mem _ hmem')

theorem eraseP_sig_not_mem (l : PrewarmCache) (s : String)
    (hnd : (l.map CacheEntry.sig).Nodup) :
    ∀ x ∈ l.eraseP (fun x => x.sig == s), x.sig ≠ s := by
  induction l with
  | nil => intro x hx; cases hx
  | cons a l ih =>
    rw [List.map_cons, List.nodup_cons] at hnd
    by_cases ha : a.sig = s
    · rw [List.eraseP_cons_of_pos (by simp [ha])]
      intro x hx hxs
      exact hnd.1 (by rw [ha, ← hxs]; exact List.mem_map_of_mem _ hx)
    · rw [List.eraseP_cons_of_neg (by simp [ha])]
      intro x hx
      rcases List.mem_cons.mp hx with rfl | hx'
      · exact ha
      · exact ih hnd.2 x hx'

/-- A live entry of a table within capacity is popped by `take`: the
returned value is the entry's text and the table left behind is the
garbage-collected table with the entry erased. -/
theorem take_hit (nowTs : ℚ) (f : Option GrokFortune) (cache : PrewarmCache)
    (e : CacheEntry)
    (hnd : (cache.map CacheEntry.sig).Nodup)
    (hlen : cache.length ≤ L2_PREWARM_MAX_ENTRIES)
    (hmem : e ∈ cache) (hsig : e.sig = fortunesSignature f)
    (hlive : nowTs - e.ts ≤ L2_PREWARM_TTL_SEC) :
    takePrewarmedL2Analysis nowTs f cache =
      (some e.text,
        (cache.filter (fun x => !decide (nowTs - x.ts > L2_PREWARM_TTL_SEC))).eraseP
          (fun x => x.sig == fortunesSignature f)) := by
  have hgc := gc_eq_filter nowTs cache hlen
  set kept := cache.filter (fun x => !decide (nowTs - x.ts > L2_PREWARM_TTL_SEC)) with hkept
  have hmemk : e ∈ kept := by
    rw [hkept, List.mem_filter]
    exact ⟨hmem, by simp [not_lt.mpr hlive]⟩
  have hndk : (kept.map CacheEntry.sig).Nodup :=
    hnd.sublist ((List.filter_sublist _).map _)
  have hfind : kept.find? (fun x => x.sig == fortunesSignature f) = some e := by
    rw [← hsig]
    exact find_sig_eq kept e hmemk hndk
  unfold takePrewarmedL2Analysis
  dsimp only
  rw [if_neg (fortunesSignature_ne_empty f), hgc, hfind]
  simp [not_lt.mpr hlive]

/-- When no entry of the table carries the signature of `f`, `take`
returns nothing and leaves the garbage-collected table. -/
theorem take_none_of_sig_absent (nowTs : ℚ) (f : Option GrokFortune)
    (cache : PrewarmCache)
    (habs : ∀ x ∈ cache, x.sig ≠ fortunesSignature f) :
    takePrewarmedL2Analysis nowTs f cache = (none, gcL2PrewarmCache nowTs cache) := by
  have hfind : (gcL2PrewarmCache nowTs cache).find?
      (fun x => x.sig == fortunesSignature f) = none := by
    rw [List.find?_eq_none]
    intro x hx
    simp only [beq_iff_eq]
    exact habs x ((gc_sublist nowTs cache).mem hx)
  unfold takePrewarmedL2Analysis
  dsimp only
  rw [if_neg (fortunesSignature_ne_empty f), hfind]

theorem gc_sublist_kept (nowTs : ℚ) (cache : PrewarmCache) :
    (gcL2PrewarmCache nowTs cache).Sublist
      (cache.filter (fun e => !decide (nowTs - e.ts > L2_PREWARM_TTL_SEC))) := by
  unfold gcL2PrewarmCache
  dsimp only
  split
  · exact List.filter_sublist _
  · exact List.Sublist.refl _

theorem gc_eq_kept_of_le (nowTs : ℚ) (cache : PrewarmCache)
    (h : (cache.filter (fun e => !decide (nowTs - e.ts > L2_PREWARM_TTL_SEC))).length
      ≤ L2_PREWARM_MAX_ENTRIES) :
    gcL2PrewarmCache nowTs cache =
      cache.filter (fun e => !decide (nowTs - e.ts > L2_PREWARM_TTL_SEC)) := by
  unfold gcL2PrewarmCache
  dsimp only
  rw [if_neg (Nat.not_lt.mpr h)]

/-- Filtering out the signatures of the first `n` entries of the stable
sort by timestamp leaves, up to permutation, exactly the sorted list with
its first `n` entries dropped. -/
theorem dropOldest_perm (l : List CacheEntry) (n : Nat)
    (hnd : (l.map CacheEntry.sig).Nodup) :
    (l.filter (fun e =>
        !((l.mergeSort (fun a b => decide (a.ts ≤ b.ts))).take n).any
          (fun d => d.sig == e.sig))).Perm
      ((l.mergeSort (fun a b => decide (a.ts ≤ b.ts))).drop n) := by
  set sorted := l.mergeSort (fun a b => decide (a.ts ≤ b.ts)) with hsorted
  set dropped := sorted.take n with hdropped
  set rest := sorted.drop n with hrest
  have hperm : sorted.Perm l := List.mergeSort_perm l _
  have hnds : (sorted.map CacheEntry.sig).Nodup := ((hperm.map _).nodup_iff).mpr hnd
  have hsplit : dropped ++ rest = sorted := List.take_append_drop n sorted
  have hfilter : (l.filter (fun e => !dropped.any (fun d => d.sig == e.sig))).Perm
      (sorted.filter (fun e => !dropped.any (fun d => d.sig == e.sig))) :=
    List.Perm.filter _ hperm.symm
  have hfd : dropped.filter (fun e => !dropped.any (fun d => d.sig == e.sig)) = [] := by
    rw [List.filter_eq_nil_iff]
    intro a ha
    have : dropped.any (fun d => d.sig == a.sig) = true :=
      List.any_eq_true.mpr ⟨a, ha, by simp⟩
    simp [this]
  have hdisj : (dropped.map CacheEntry.sig).Disjoint (rest.map CacheEntry.sig) := by
    rw [← hsplit, List.map_append] at hnds
    exact (List.nodup_append.mp hnds).2.2
  have hfr : rest.filter (fun e => !dropped.any (fun d => d.sig == e.sig)) = rest := by
    rw [List.filter_eq_self]
    intro a ha
    simp only [Bool.not_eq_true', List.any_eq_false]
    intro d hd
    simp only [beq_iff_eq]
    intro hda
    exact hdisj (List.mem_map_of_mem _ hd) (hda ▸ List.mem_map_of_mem _ ha)
  have hsf : sorted.filter (fun e => !dropped.any (fun d => d.sig == e.sig)) = rest := by
    conv_lhs => rw [← hsplit]
    rw [List.filter_append, hfd, hfr, List.nil_append]
  rw [hsf] at hfilter
  exact hfilter

/-- Over capacity, garbage collection leaves exactly the maximum entry
count and every capacity-evicted live entry is at least as old as every
survivor. -/
theorem gc_over_analysis (nowTs : ℚ) (cache : PrewarmCache)
    (hnd : (cache.map CacheEntry.sig).Nodup)
    (hover : (cache.filter (fun e => !decide (nowTs - e.ts > L2_PREWARM_TTL_SEC))).length
      > L2_PREWARM_MAX_ENTRIES) :
    (gcL2PrewarmCache nowTs cache).length = L2_PREWARM_MAX_ENTRIES ∧
    (∀ e ∈ cache.filter (fun x => !decide (nowTs - x.ts > L2_PREWARM_TTL_SEC)),
      e ∉ gcL2PrewarmCache nowTs cache →
      ∀ x ∈ gcL2PrewarmCache nowTs cache, e.ts ≤ x.ts) := by
  set kept := cache.filter (fun e => !decide (nowTs - e.ts > L2_PREWARM_TTL_SEC)) with hkept
  set sorted := kept.mergeSort (fun a b => decide (a.ts ≤ b.ts)) with hsorted
  set toDrop := kept.length - L2_PREWARM_MAX_ENTRIES with htd
  have hndk : (kept.map CacheEntry.sig).Nodup :=
    hnd.sublist ((List.filter_sublist _).map _)
  have hgc : gcL2PrewarmCache nowTs cache =
      kept.filter (fun e => !(sorted.take toDrop).any (fun d => d.sig == e.sig)) := by
    unfold gcL2PrewarmCache
    dsimp only
    rw [if_pos hover]
  have hperm : sorted.Perm kept := List.mergeSort_perm kept _
  have hsplit : sorted.take toDrop ++ sorted.drop toDrop = sorted :=
    List.take_append_drop toDrop sorted
  have hgcperm : (gcL2PrewarmCache nowTs cache).Perm (sorted.drop toDrop) := by
    rw [hgc]
    exact dropOldest_perm kept toDrop hndk
  constructor
  · rw [hgcperm.length_eq, List.length_drop, ← hperm.length_eq] at *
    omega
  · intro e he hegc x hx
    have hesort : e ∈ sorted := hperm.mem_iff.mpr he
    have hxrest : x ∈ sorted.drop toDrop := hgcperm.mem_iff.mp hx
    have hedrop : e ∈ sorted.take toDrop := by
      rcases List.mem_append.mp (by rw [hsplit]; exact hesort) with h | h
      · exact h
      · exact absurd (hgcperm.mem_iff.mpr h) hegc
    have hpair : List.Pairwise
        (fun a b => (fun a b : CacheEntry => decide (a.ts ≤ b.ts)) a b = true) sorted :=
      List.sorted_mergeSort
        (fun a b c hab hbc => by
          simp only [decide_eq_true_eq] at *
          exact le_trans hab hbc)
        (fun a b => by rcases le_total a.ts b.ts with h | h <;> simp [h])
        kept
    rw [← hsplit] at hpair
    have := (List.pairwise_append.mp hpair).2.2 e hedrop x hxrest
    simpa using this

/-- An expired entry is dropped by the garbage-collection pass, so `take`
returns nothing and the signature is gone from the table left behind. -/
theorem take_expired (nowTs : ℚ) (f : Option GrokFortune) (cache : PrewarmCache)
    (e : CacheEntry)
    (hnd : (cache.map CacheEntry.sig).Nodup)
    (hmem : e ∈ cache) (hsig : e.sig = fortunesSignature f)
    (hexp : nowTs - e.ts > L2_PREWARM_TTL_SEC) :
    takePrewarmedL2Analysis nowTs f cache = (none, gcL2PrewarmCache nowTs cache) ∧
    ∀ x ∈ gcL2PrewarmCache nowTs cache, x.sig ≠ fortunesSignature f := by
  have habs : ∀ x ∈ gcL2PrewarmCache nowTs cache, x.sig ≠ fortunesSignature f := by
    intro x hx hxs
    have hxk : x ∈ cache.filter (fun y => !decide (nowTs - y.ts > L2_PREWARM_TTL_SEC)) := by
      have hsub : (gcL2PrewarmCache nowTs cache).Sublist
          (cache.filter (fun y => !decide (nowTs - y.ts > L2_PREWARM_TTL_SEC))) := by
        unfold gcL2PrewarmCache
        dsimp only
        split
        · exact List.filter_sublist _
        · exact List.Sublist.refl _
      exact hsub.mem hx
    rw [List.mem_filter] at hxk
    have hxe : x = e :=
      List.inj_on_of_nodup_map hnd hxk.1 hmem (by rw [hxs, hsig])
    rw [hxe] at hxk
    simp [not_lt.mpr, hexp] at hxk
  refine ⟨?_, habs⟩
  have hfind : (gcL2PrewarmCache nowTs cache).find?
      (fun x => x.sig == fortunesSignature f) = none := by
    rw [List.find?_eq_none]
    intro x hx
    simp only [beq_iff_eq]
    exact habs x hx
  unfold takePrewarmedL2Analysis
  dsimp only
  rw [if_neg (fortunesSignature_ne_empty f), hfind]

/-! ## Supporting lemmas: the provider invoker loop -/

/-- If attempts `attempt, …, N-1` fail retriably and attempt `N` returns
non-empty text, the loop started at `attempt` with enough fuel stops at
attempt `N` with that text. -/
theorem callDeepModelAux_succeeds (provider : Nat → AttemptOutcome) (N : Nat) (s : String)
    (hs : s ≠ "") (hN : N ≤ maxAttempts) (hsucc : provider N = AttemptOutcome.success s) :
    ∀ (fuel attempt : Nat), 1 ≤ attempt → attempt ≤ N →
    maxAttempts + 1 - attempt ≤ fuel →
    (∀ k, attempt ≤ k → k < N →
      ∃ e, provider k = AttemptOutcome.failure e ∧ isRetriableErr e = true) →
    callDeepModelAux provider fuel attempt = (some s, N) := by
  intro fuel
  induction fuel with
  | zero =>
      intro attempt h1 h2 hf _
      have : attempt ≤ maxAttempts := h2.trans hN
      omega
  | succ fuel ih =>
      intro attempt h1 h2 hf hfail
      by_cases heq : attempt = N
      · subst heq
        unfold callDeepModelAux attemptResult
        rw [hsucc]
        simp [hs]
      · have hlt : attempt < N := lt_of_le_of_ne h2 heq
        obtain ⟨e, hpe, hre⟩ := hfail attempt le_rfl hlt
        unfold callDeepModelAux attemptResult
        rw [hpe]
        dsimp only
        rw [if_pos ⟨lt_of_lt_of_le hlt hN, hre⟩]
        exact ih (attempt + 1) (by omega) hlt (by omega)
          (fun k hk1 hk2 => hfail k (by omega) hk2)

/-- A non-retriable failure on the very first attempt makes the loop
return `none` after exactly one call. -/
theorem callDeepModel_abort_first (provider : Nat → AttemptOutcome) (e : DeepErr)
    (hpe : provider 1 = AttemptOutcome.failure e) (hre : isRetriableErr e = false) :
    callDeepModel provider = (none, 1) := by
  have h4 : callDeepModel provider = callDeepModelAux provider (3 + 1) 1 := rfl
  rw [h4]
  unfold callDeepModelAux attemptResult
  rw [hpe]
  simp [hre]

/-! ## The claims -/

/-- Claim C1: for every cache table (within the maintained size bound and
with its dict-key uniqueness) and every short-reading content whose
signature maps to a live entry, `take` returns that entry's text and
removes the signature from the table, so an immediate second `take` with
the same content returns nothing. -/
theorem speculative_take_pop (nowTs : ℚ) (f : Option GrokFortune) (cache : PrewarmCache)
    (e : CacheEntry)
    (hnd : (cache.map CacheEntry.sig).Nodup)
    (hlen : cache.length ≤ L2_PREWARM_MAX_ENTRIES)
    (hmem : e ∈ cache) (hsig : e.sig = fortunesSignature f)
    (hlive : nowTs - e.ts ≤ L2_PREWARM_TTL_SEC) :
    (takePrewarmedL2Analysis nowTs f cache).1 = some e.text ∧
    (∀ x ∈ (takePrewarmedL2Analysis nowTs f cache).2, x.sig ≠ fortunesSignature f) ∧
    (takePrewarmedL2Analysis nowTs f (takePrewarmedL2Analysis nowTs f cache).2).1 = none := by
  have h1 := take_hit nowTs f cache e hnd hlen hmem hsig hlive
  have hndk : ((cache.filter
      (fun x => !decide (nowTs - x.ts > L2_PREWARM_TTL_SEC))).map CacheEntry.sig).Nodup :=
    hnd.sublist ((List.filter_sublist _).map _)
  have habs : ∀ x ∈ (takePrewarmedL2Analysis nowTs f cache).2,
      x.sig ≠ fortunesSignature f := by
    rw [h1]
    exact eraseP_sig_not_mem _ _ hndk
  refine ⟨by rw [h1], habs, ?_⟩
  rw [take_none_of_sig_absent nowTs f _ habs]

/-- Claim C1 witness: a singleton table holding `"X"` under the signature
of the `A`/`B`/`C` short reading at time `0`, taken at time `0`. -/
theorem speculative_take_pop_witness :
    (takePrewarmedL2Analysis 0 (some ⟨"A", "B", "C"⟩)
        [⟨fortunesSignature (some ⟨"A", "B", "C"⟩), "X", 0⟩]).1 = some "X" ∧
    (∀ x ∈ (takePrewarmedL2Analysis 0 (some ⟨"A", "B", "C"⟩)
        [⟨fortunesSignature (some ⟨"A", "B", "C"⟩), "X", 0⟩]).2,
      x.sig ≠ fortunesSignature (some ⟨"A", "B", "C"⟩)) ∧
    (takePrewarmedL2Analysis 0 (some ⟨"A", "B", "C"⟩)
        (takePrewarmedL2Analysis 0 (some ⟨"A", "B", "C"⟩)
          [⟨fortunesSignature (some ⟨"A", "B", "C"⟩), "X", 0⟩]).2).1 = none :=
  speculative_take_pop 0 (some ⟨"A", "B", "C"⟩)
    [⟨fortunesSignature (some ⟨"A", "B", "C"⟩), "X", 0⟩]
    ⟨fortunesSignature (some ⟨"A", "B", "C"⟩), "X", 0⟩
    (by simp) (by norm_num [L2_PREWARM_MAX_ENTRIES]) (by simp) rfl
    (by norm_num [L2_PREWARM_TTL_SEC])

/-- Claim C5: an entry written at `T` is eligible exactly while
`now − T ≤ TTL`: `take` returns it at any time up to `T + TTL`, and
strictly after that returns nothing while still removing the expired
signature from the table. -/
theorem take_ttl_eligibility (nowTs : ℚ) (f : Option GrokFortune) (cache : PrewarmCache)
    (e : CacheEntry)
    (hnd : (cache.map CacheEntry.sig).Nodup)
    (hlen : cache.length ≤ L2_PREWARM_MAX_ENTRIES)
    (hmem : e ∈ cache) (hsig : e.sig = fortunesSignature f) :
    (nowTs - e.ts ≤ L2_PREWARM_TTL_SEC →
      (takePrewarmedL2Analysis nowTs f cache).1 = some e.text) ∧
    (nowTs - e.ts > L2_PREWARM_TTL_SEC →
      (takePrewarmedL2Analysis nowTs f cache).1 = none ∧
      ∀ x ∈ (takePrewarmedL2Analysis nowTs f cache).2, x.sig ≠ fortunesSignature f) := by
  constructor
  · intro hlive
    rw [take_hit nowTs f cache e hnd hlen hmem hsig hlive]
  · intro hexp
    obtain ⟨heq, habs⟩ := take_expired nowTs f cache e hnd hmem hsig hexp
    rw [heq]
    exact ⟨rfl, habs⟩

/-- Claim C5 witness: the entry written at time `0` is returned at
`now = TTL` and is gone (and not returned) at `now = TTL + 1`. -/
theorem take_ttl_eligibility_witness :
    ((900 : ℚ) - 0 ≤ L2_PREWARM_TTL_SEC →
      (takePrewarmedL2Analysis 900 (some ⟨"A", "B", "C"⟩)
        [⟨fortunesSignature (some ⟨"A", "B", "C"⟩), "X", 0⟩]).1 = some "X") ∧
    ((901 : ℚ) - 0 > L2_PREWARM_TTL_SEC →
      (takePrewarmedL2Analysis 901 (some ⟨"A", "B", "C"⟩)
        [⟨fortunesSignature (some ⟨"A", "B", "C"⟩), "X", 0⟩]).1 = none ∧
      ∀ x ∈ (takePrewarmedL2Analysis 901 (some ⟨"A", "B", "C"⟩)
          [⟨fortunesSignature (some ⟨"A", "B", "C"⟩), "X", 0⟩]).2,
        x.sig ≠ fortunesSignature (some ⟨"A", "B", "C"⟩)) :=
  ⟨(take_ttl_eligibility 900 (some ⟨"A", "B", "C"⟩)
      [⟨fortunesSignature (some ⟨"A", "B", "C"⟩), "X", 0⟩]
      ⟨fortunesSignature (some ⟨"A", "B", "C"⟩), "X", 0⟩
      (by simp) (by norm_num [L2_PREWARM_MAX_ENTRIES]) (by simp) rfl).1,
   (take_ttl_eligibility 901 (some ⟨"A", "B", "C"⟩)
      [⟨fortunesSignature (some ⟨"A", "B", "C"⟩), "X", 0⟩]
      ⟨fortunesSignature (some ⟨"A", "B", "C"⟩), "X", 0⟩
      (by simp) (by norm_num [L2_PREWARM_MAX_ENTRIES]) (by simp) rfl).2⟩

/-- Claim C2: when the speculative cache holds text `X` (live, non-empty)
under the signature of the request's short-reading fields, `create_share`
writes `X` into the record's `analysis_l2` and schedules no backfill —
and since the backfill task is the only provider-calling code reachable
from `create_share`, no additional provider call is made. -/
theorem create_share_prewarm_hit (aiToken : Bool) (nowTs T : ℚ) (g : GrokFortune)
    (x : String) (cache : PrewarmCache)
    (hnd : (cache.map CacheEntry.sig).Nodup)
    (hlen : cache.length ≤ L2_PREWARM_MAX_ENTRIES)
    (hmem : (⟨fortunesSignature (some g), x, T⟩ : CacheEntry) ∈ cache)
    (hx : x ≠ "") (hlive : nowTs - T ≤ L2_PREWARM_TTL_SEC) :
    (createShare aiToken nowTs (some g) cache).analysisL2 = some x ∧
    (createShare aiToken nowTs (some g) cache).backfillScheduled = false := by
  have h1 := take_hit nowTs (some g) cache ⟨fortunesSignature (some g), x, T⟩
    hnd hlen hmem rfl hlive
  unfold createShare
  rw [h1]
  simp [hx]

/-- Claim C2 witness: fields `A`/`B`/`C` with `"X"` cached speculatively
at time `0` and the share created at time `0`. -/
theorem create_share_prewarm_hit_witness :
    (createShare true 0 (some ⟨"A", "B", "C"⟩)
      [⟨fortunesSignature (some ⟨"A", "B", "C"⟩), "X", 0⟩]).analysisL2 = some "X" ∧
    (createShare true 0 (some ⟨"A", "B", "C"⟩)
      [⟨fortunesSignature (some ⟨"A", "B", "C"⟩), "X", 0⟩]).backfillScheduled = false :=
  create_share_prewarm_hit true 0 0 ⟨"A", "B", "C"⟩ "X"
    [⟨fortunesSignature (some ⟨"A", "B", "C"⟩), "X", 0⟩]
    (by simp) (by norm_num [L2_PREWARM_MAX_ENTRIES]) (by simp)
    (by simp) (by norm_num [L2_PREWARM_TTL_SEC])

/-- Claim C3: a provider failing `N−1` times retriably and then
succeeding with non-empty text costs exactly `N` upstream calls and
yields that text, for every `N` from `1` to the maximum attempt count;
and a non-retriable error on the first call costs exactly `1` call and
yields an absent result. -/
theorem invoker_retry_counts (provider : Nat → AttemptOutcome) (N : Nat) (s : String)
    (hN1 : 1 ≤ N) (hN : N ≤ maxAttempts) (hs : s ≠ "")
    (hfail : ∀ k, 1 ≤ k → k < N →
      ∃ e, provider k = AttemptOutcome.failure e ∧ isRetriableErr e = true)
    (hsucc : provider N = AttemptOutcome.success s) :
    callDeepModel provider = (some s, N) ∧
    ∀ (q : Nat → AttemptOutcome) (e : DeepErr), q 1 = AttemptOutcome.failure e →
      isRetriableErr e = false → callDeepModel q = (none, 1) := by
  refine ⟨?_, fun q e hq hre => callDeepModel_abort_first q e hq hre⟩
  exact callDeepModelAux_succeeds provider N s hs hN hsucc maxAttempts 1
    le_rfl hN1 (by omega) hfail

/-- Claim C3 witness: two timeouts then success at the third attempt
(`N = 3`), and a single HTTP 400 aborting after one call. -/
theorem invoker_retry_counts_witness :
    callDeepModel (fun k =>
      if k < 3 then AttemptOutcome.failure DeepErr.timeout
      else AttemptOutcome.success "ok") = (some "ok", 3) ∧
    callDeepModel (fun _ => AttemptOutcome.failure (DeepErr.httpStatus 400)) = (none, 1) := by
  have h := invoker_retry_counts
    (fun k => if k < 3 then AttemptOutcome.failure DeepErr.timeout
              else AttemptOutcome.success "ok")
    3 "ok" (by norm_num) (by norm_num [maxAttempts]) (by simp)
    (fun k hk1 hk2 => ⟨DeepErr.timeout, by simp [hk2], rfl⟩)
    (by simp)
  exact ⟨h.1, h.2 _ (DeepErr.httpStatus 400) rfl rfl⟩

/-- Claim C4 counterexample: HTTP 501 is a 5xx server error, yet the
classifier marks it non-retriable — the retriable status set is
`(408, 409, 429, 500, 502, 503, 504)`, not "any 5xx". -/
theorem err_classification_counterexample :
    isRetriableErr (DeepErr.httpStatus 501) = false ∧ 500 ≤ 501 ∧ 501 ≤ 599 := by
  decide

/-- Claim C4 (amended): an error is retriable exactly when it is a
timeout/connectivity failure or an HTTP status error with status in
`(408, 409, 429, 500, 502, 503, 504)`; every other error is
non-retriable and aborts the attempt loop on the spot. -/
theorem err_classification (e : DeepErr) :
    (isRetriableErr e = true ↔
      (e = DeepErr.timeout ∨ e = DeepErr.network ∨
        ∃ c, e = DeepErr.httpStatus c ∧
          (c = 408 ∨ c = 409 ∨ c = 429 ∨ c = 500 ∨ c = 502 ∨ c = 503 ∨ c = 504))) ∧
    ∀ (provider : Nat → AttemptOutcome), provider 1 = AttemptOutcome.failure e →
      isRetriableErr e = false → callDeepModel provider = (none, 1) := by
  refine ⟨?_, fun provider hp hre => callDeepModel_abort_first provider e hp hre⟩
  cases e <;> simp [isRetriableErr]
  tauto

/-- Claim C4 witness: a timeout is retriable, and a provider raising a
non-HTTP error is aborted after one call. -/
theorem err_classification_witness :
    isRetriableErr DeepErr.timeout = true ∧
    callDeepModel (fun _ => AttemptOutcome.failure DeepErr.other) = (none, 1) :=
  ⟨(err_classification DeepErr.timeout).1.mpr (Or.inl rfl),
   (err_classification DeepErr.other).2
     (fun _ => AttemptOutcome.failure DeepErr.other) rfl rfl⟩

/-- Claim C7 counterexample: the signature of empty/absent content is the
SHA-256 of the canonical `\x7b\x7d`, which is not "no signature", and
`tryPrewarm` on empty content (token configured, nothing in flight) does
issue the upstream call — caching is not skipped. -/
theorem empty_signature_counterexample :
    fortunesSignature none =
      "44136fa355b3678a1146ad16f7e8649e94fb4fc21fe77e8310c060f61caaff8a" ∧
    fortunesSignature none ≠ "" ∧
    (prewarmL2FromFortunes true 0 none (some "analysis text") [] []).1 = true := by
  refine ⟨by decide, fortunesSignature_ne_empty none, by decide⟩

/-- Claim C7 (amended): empty/absent content yields the fixed non-empty
signature of the empty canonical serialization, so neither caching path
is skipped: `tryPrewarm` (token configured, signature not in flight)
performs the upstream call, and `take` proceeds past its guard, running
garbage collection on the table and returning nothing only because no
entry is cached under that signature. -/
theorem empty_signature_behavior :
    fortunesSignature none ≠ "" ∧
    (∀ (nowTs : ℚ) (generated : Option String) (cache : PrewarmCache)
        (inflight : List String),
      fortunesSignature none ∉ inflight →
      (prewarmL2FromFortunes true nowTs none generated cache inflight).1 = true) ∧
    (∀ (nowTs : ℚ) (cache : PrewarmCache),
      (∀ x ∈ cache, x.sig ≠ fortunesSignature none) →
      takePrewarmedL2Analysis nowTs none cache = (none, gcL2PrewarmCache nowTs cache)) := by
  refine ⟨fortunesSignature_ne_empty none, ?_, ?_⟩
  · intro nowTs generated cache inflight hfl
    unfold prewarmL2FromFortunes
    dsimp only
    rw [if_neg (by simp)]
    rw [if_neg (by simp [fortunesSignature_ne_empty none, hfl])]
    cases generated with
    | none => rfl
    | some analysis => dsimp only; split <;> rfl
  · intro nowTs cache habs
    exact take_none_of_sig_absent nowTs none cache habs

/-- Claim C7 witness: concrete instantiations of the amended behavior at
an empty cache and in-flight set. -/
theorem empty_signature_behavior_witness :
    (prewarmL2FromFortunes true 0 none (some "t") [] []).1 = true ∧
    takePrewarmedL2Analysis 0 none [] = (none, gcL2PrewarmCache 0 []) :=
  ⟨empty_signature_behavior.2.1 0 (some "t") [] [] (by simp),
   empty_signature_behavior.2.2 0 [] (by simp)⟩

/-- Claim C6: after a garbage-collection pass at `now`, no entry older
than TTL remains and at most the configured maximum entry count (256)
remains; the non-expired entries evicted for capacity are exactly the
oldest-created ones — eviction beyond expiry happens only when the live
entries exceed the maximum (and then leaves exactly the maximum), and
every evicted live entry is no newer than every surviving entry. -/
theorem gc_capacity_invariants (nowTs : ℚ) (cache : PrewarmCache)
    (hnd : (cache.map CacheEntry.sig).Nodup) :
    (∀ e ∈ gcL2PrewarmCache nowTs cache, nowTs - e.ts ≤ L2_PREWARM_TTL_SEC) ∧
    (gcL2PrewarmCache nowTs cache).length ≤ L2_PREWARM_MAX_ENTRIES ∧
    (∀ e ∈ cache, nowTs - e.ts ≤ L2_PREWARM_TTL_SEC →
      e ∉ gcL2PrewarmCache nowTs cache →
      ∀ x ∈ gcL2PrewarmCache nowTs cache, e.ts ≤ x.ts) ∧
    ((cache.filter (fun e => !decide (nowTs - e.ts > L2_PREWARM_TTL_SEC))).length
        > L2_PREWARM_MAX_ENTRIES →
      (gcL2PrewarmCache nowTs cache).length = L2_PREWARM_MAX_ENTRIES) := by
  have hmemlive : ∀ e ∈ gcL2PrewarmCache nowTs cache,
      nowTs - e.ts ≤ L2_PREWARM_TTL_SEC := by
    intro e he
    have hk := (gc_sublist_kept nowTs cache).mem he
    rw [List.mem_filter] at hk
    have := hk.2
    simp only [Bool.not_eq_true', decide_eq_false_iff_not, not_lt] at this
    exact this
  refine ⟨hmemlive, ?_, ?_, fun hover => (gc_over_analysis nowTs cache hnd hover).1⟩
  · by_cases hover : (cache.filter
        (fun e => !decide (nowTs - e.ts > L2_PREWARM_TTL_SEC))).length
        > L2_PREWARM_MAX_ENTRIES
    · exact le_of_eq (gc_over_analysis nowTs cache hnd hover).1
    · rw [gc_eq_kept_of_le nowTs cache (Nat.not_lt.mp hover)]
      exact Nat.not_lt.mp hover
  · intro e he hlive hegc x hx
    have hek : e ∈ cache.filter
        (fun y => !decide (nowTs - y.ts > L2_PREWARM_TTL_SEC)) :=
      List.mem_filter.mpr ⟨he, by simp [not_lt.mpr hlive]⟩
    by_cases hover : (cache.filter
        (fun y => !decide (nowTs - y.ts > L2_PREWARM_TTL_SEC))).length
        > L2_PREWARM_MAX_ENTRIES
    · exact (gc_over_analysis nowTs cache hnd hover).2 e hek hegc x hx
    · exact absurd (by
        rw [gc_eq_kept_of_le nowTs cache (Nat.not_lt.mp hover)]
        exact hek) hegc

/-- Claim C6 witness: a two-entry table with one expired entry at
`now = 1000`. -/
theorem gc_capacity_invariants_witness :
    (∀ e ∈ gcL2PrewarmCache 1000 [⟨"a", "x", 0⟩, ⟨"b", "y", 500⟩],
      (1000 : ℚ) - e.ts ≤ L2_PREWARM_TTL_SEC) ∧
    (gcL2PrewarmCache 1000 [⟨"a", "x", 0⟩, ⟨"b", "y", 500⟩]).length
      ≤ L2_PREWARM_MAX_ENTRIES ∧
    (∀ e ∈ ([⟨"a", "x", 0⟩, ⟨"b", "y", 500⟩] : PrewarmCache),
      (1000 : ℚ) - e.ts ≤ L2_PREWARM_TTL_SEC →
      e ∉ gcL2PrewarmCache 1000 [⟨"a", "x", 0⟩, ⟨"b", "y", 500⟩] →
      ∀ x ∈ gcL2PrewarmCache 1000 [⟨"a", "x", 0⟩, ⟨"b", "y", 500⟩], e.ts ≤ x.ts) ∧
    ((([⟨"a", "x", 0⟩, ⟨"b", "y", 500⟩] : PrewarmCache).filter
        (fun e => !decide ((1000 : ℚ) - e.ts > L2_PREWARM_TTL_SEC))).length
        > L2_PREWARM_MAX_ENTRIES →
      (gcL2PrewarmCache 1000 [⟨"a", "x", 0⟩, ⟨"b", "y", 500⟩]).length
        = L2_PREWARM_MAX_ENTRIES) :=
  gc_capacity_invariants 1000 [⟨"a", "x", 0⟩, ⟨"b", "y", 500⟩] (by simp)

/-- Claim C8: `update_share` against an id that was never created raises
`KeyError` (a distinguishable not-found condition), and even the issued
`UPDATE` statement touches no row, so the table is unchanged. -/
theorem update_share_missing_id (tbl : PgTable) (shareId : String) (payload : Jsonb)
    (habs : shareId ∉ tbl.map Prod.fst) :
    updateShare tbl shareId payload = Except.error shareId ∧
    (sqlUpdateShares tbl shareId payload).1 = tbl := by
  have hcount : (tbl.filter (fun r => r.1 == shareId)).length = 0 := by
    rw [List.length_eq_zero, List.filter_eq_nil_iff]
    intro r hr
    simp only [beq_iff_eq]
    intro h
    exact habs (h ▸ List.mem_map_of_mem Prod.fst hr)
  have hmap : (sqlUpdateShares tbl shareId payload).1 = tbl := by
    unfold sqlUpdateShares
    dsimp only
    have hid : ∀ r ∈ tbl,
        (if r.1 = shareId then (r.1, jsonbConcat r.2 payload) else r) = id r := by
      intro r hr
      rw [if_neg, id]
      intro h
      exact habs (by rw [← h]; exact List.mem_map_of_mem Prod.fst hr)
    rw [List.map_congr_left hid, List.map_id]
  refine ⟨?_, hmap⟩
  unfold updateShare sqlUpdateShares
  dsimp only
  rw [hcount]
  simp

/-- Claim C8 witness: updating id `zzz` in a table holding only `abc`. -/
theorem update_share_missing_id_witness :
    updateShare [("abc", Jsonb.obj [])] "zzz" (Jsonb.obj [("analysis_l2", Jsonb.str "x")]) =
      Except.error "zzz" ∧
    (sqlUpdateShares [("abc", Jsonb.obj [])] "zzz"
      (Jsonb.obj [("analysis_l2", Jsonb.str "x")])).1 = [("abc", Jsonb.obj [])] :=
  update_share_missing_id [("abc", Jsonb.obj [])] "zzz"
    (Jsonb.obj [("analysis_l2", Jsonb.str "x")]) (by simp)

theorem lookup_dictSet_self (d : List (String × String)) (k v : String) :
    (dictSet d k v).lookup k = some v := by
  induction d with
  | nil => simp [dictSet, List.lookup]
  | cons p rest ih =>
    obtain ⟨pk, pv⟩ := p
    by_cases h : pk = k
    · subst h
      simp [dictSet, List.lookup]
    · simp only [dictSet, if_neg h, List.lookup_cons]
      rw [show (k == pk) = false from beq_eq_false_iff_ne.mpr (Ne.symm h)]
      exact ih

theorem lookup_dictSet_ne (d : List (String × String)) (k k' v : String)
    (h : k' ≠ k) : (dictSet d k' v).lookup k = d.lookup k := by
  induction d with
  | nil =>
    simp only [dictSet, List.lookup_cons]
    rw [show (k == k') = false from beq_eq_false_iff_ne.mpr (Ne.symm h)]
  | cons p rest ih =>
    obtain ⟨pk, pv⟩ := p
    simp only [dictSet]
    by_cases hp : pk = k'
    · rw [if_pos hp]
      subst hp
      simp [List.lookup_cons,
        show (k == pk) = false from beq_eq_false_iff_ne.mpr (Ne.symm h)]
    · rw [if_neg hp]
      simp only [List.lookup_cons]
      cases hkp : (k == pk) with
      | true => rfl
      | false => exact ih

/-- Claim C9 counterexample: a connection string carrying an explicit
`sslmode=disable` is left with `sslmode=disable` by normalization, so
the result does not require transport encryption. -/
theorem normalize_url_counterexample :
    specRequiresEncryption (normalizeDatabaseUrl
      ⟨"postgresql", "host.example.com", "/db", [("sslmode", "disable")], ""⟩) = false ∧
    (normalizeDatabaseUrl
      ⟨"postgresql", "host.example.com", "/db", [("sslmode", "disable")], ""⟩).query
      = [("sslmode", "disable")] := by
  constructor <;> decide

/-- Claim C9 (amended): normalization adds `sslmode=require` only when
the query has no `sslmode` (an explicit value, even `disable`, is kept);
when the host is a managed-provider endpoint (`ep-` prefix) and the
existing `options` value does not already mention `endpoint=`, the
`options` parameter is set (replacing any previous value) to
`endpoint=<first host label>`; scheme, network location, path, fragment
and all other query keys pass through unchanged. -/
theorem normalize_url_properties (u : DbUrl) :
    ((dictOfPairs u.query).lookup "sslmode" = none →
      (normalizeDatabaseUrl u).query.lookup "sslmode" = some "require") ∧
    (∀ v, (dictOfPairs u.query).lookup "sslmode" = some v →
      (normalizeDatabaseUrl u).query.lookup "sslmode" = some v) ∧
    (endpointIdOf u.netloc ≠ "" →
      containsSubstr "endpoint="
        ((((if ((dictOfPairs u.query).lookup "sslmode").isNone
            then dictSet (dictOfPairs u.query) "sslmode" "require"
            else dictOfPairs u.query)).lookup "options").getD "") = false →
      (normalizeDatabaseUrl u).query.lookup "options"
        = some ("endpoint=" ++ endpointIdOf u.netloc)) ∧
    ((normalizeDatabaseUrl u).scheme = u.scheme ∧
      (normalizeDatabaseUrl u).netloc = u.netloc ∧
      (normalizeDatabaseUrl u).path = u.path ∧
      (normalizeDatabaseUrl u).fragment = u.fragment) ∧
    (∀ k, k ≠ "sslmode" → k ≠ "options" →
      (normalizeDatabaseUrl u).query.lookup k = (dictOfPairs u.query).lookup k) := by
  have hmain : ∀ k, k ≠ "options" →
      (normalizeDatabaseUrl u).query.lookup k =
        (if ((dictOfPairs u.query).lookup "sslmode").isNone
         then dictSet (dictOfPairs u.query) "sslmode" "require"
         else dictOfPairs u.query).lookup k := by
    intro k hk
    unfold normalizeDatabaseUrl
    dsimp only
    split <;> split
    all_goals first
      | rfl
      | exact lookup_dictSet_ne _ _ _ _ (Ne.symm hk)
  refine ⟨?_, ?_, ?_, ⟨rfl, rfl, rfl, rfl⟩, ?_⟩
  · intro hnone
    rw [hmain "sslmode" (by decide), hnone]
    simp only [Option.isNone_none, if_true]
    exact lookup_dictSet_self _ _ _
  · intro v hv
    rw [hmain "sslmode" (by decide), hv]
    simp only [Option.isNone_some, Bool.false_eq_true, if_false]
    exact hv
  · intro hep hopt
    unfold normalizeDatabaseUrl
    dsimp only
    rw [if_pos ⟨hep, hopt⟩]
    exact lookup_dictSet_self _ _ _
  · intro k hk1 hk2
    rw [hmain k hk2]
    split
    · exact lookup_dictSet_ne _ _ _ _ (Ne.symm hk1)
    · rfl

/-- Claim C9 witness: a bare managed-provider URL gains both
`sslmode=require` and the endpoint routing option. -/
theorem normalize_url_properties_witness :
    (normalizeDatabaseUrl
      ⟨"postgres", "u:p@ep-foo-bar.c-4.example.com", "/db", [], ""⟩).query.lookup
        "sslmode" = some "require" ∧
    (normalizeDatabaseUrl
      ⟨"postgres", "u:p@ep-foo-bar.c-4.example.com", "/db", [], ""⟩).query.lookup
        "options" = some ("endpoint=" ++ endpointIdOf "u:p@ep-foo-bar.c-4.example.com") :=
  ⟨(normalize_url_properties
      ⟨"postgres", "u:p@ep-foo-bar.c-4.example.com", "/db", [], ""⟩).1 rfl,
   (normalize_url_properties
      ⟨"postgres", "u:p@ep-foo-bar.c-4.example.com", "/db", [], ""⟩).2.2.1
     (by decide) (by decide)⟩

/-- Claim C10: every constructed relational backend reports availability
unconditionally — `is_available` is constantly `True`, so the
service-unavailable guard on the share and on-demand routes can never
fire because of the relational backend; connectivity is exercised only
by `_ensure_table` during construction. -/
theorem postgres_always_available (databaseUrl : Option DbUrl) (connectOk : Bool)
    (tableName : String) (s : PostgresShareStorage)
    (_hmk : mkPostgresShareStorage databaseUrl connectOk tableName = Except.ok s) :
    s.isAvailable = true ∧ shareRouteUnavailableGuard s.isAvailable = false :=
  ⟨rfl, rfl⟩

/-- Claim C10 witness: a concrete constructed backend. -/
theorem postgres_always_available_witness :
    (⟨normalizeDatabaseUrl ⟨"postgres", "h", "/db", [], ""⟩, "shares"⟩ :
        PostgresShareStorage).isAvailable = true ∧
    shareRouteUnavailableGuard
      (⟨normalizeDatabaseUrl ⟨"postgres", "h", "/db", [], ""⟩, "shares"⟩ :
        PostgresShareStorage).isAvailable = false :=
  postgres_always_available (some ⟨"postgres", "h", "/db", [], ""⟩) true "shares" _ rfl

end FortuneTeller
